import Mathlib

set_option maxRecDepth 100000

/-
Verification development for the currency-conversion bot (src/bot.py).

The embedding translates the pure core of the program:
- string helpers modelling the Python builtins used by the source
  (str.strip, str.lower/upper restricted to the ASCII and Cyrillic ranges the
  program manipulates, str.split, str.replace, float(), int(), substring test);
- RateTableParser and RateCache: fetch_cbr_rates, with the module-level cache
  made an explicit CacheState value and the network/XML layer made an explicit
  FeedResponse input;
- TextExtractor: parse_amount_and_currency;
- CurrencyResolver: normalize_text, detect_currency_code and its alias table;
- ConversionEngine: the pure decision core of handle_convert, with the
  outgoing replies represented as a ConvertReply value and an uncaught
  ZeroDivisionError represented by ConvertReply.crash.

Numeric model: Python floats are modelled as exact rationals; float(),
int() are modelled on the plain decimal-literal grammar the feed and the
user inputs use (underscore digit grouping and the inf/nan literals of
Python are outside the model).  Python division by zero raises
ZeroDivisionError and is modelled by pyDiv returning an error.
Dictionaries are modelled as association lists in insertion order, with
dictInsert reproducing the update-in-place/append-at-end behaviour of
Python dict assignment.
-/

/-- Model of Python str.strip(): drop whitespace from both ends. -/
def pyStrip (s : String) : String :=
  String.mk (((s.toList.dropWhile Char.isWhitespace).reverse.dropWhile
    Char.isWhitespace).reverse)

/-- Model of Python str.lower() on one character, restricted to the ASCII and
Cyrillic letters that occur in the program's data. -/
def pyLowerChar (c : Char) : Char :=
  if 'A' ≤ c ∧ c ≤ 'Z' then Char.ofNat (c.toNat + 32)
  else if 0x410 ≤ c.toNat ∧ c.toNat ≤ 0x42F then Char.ofNat (c.toNat + 32)
  else if c.toNat = 0x401 then Char.ofNat 0x451
  else c

/-- Model of Python str.lower() on strings (ASCII plus Cyrillic). -/
def pyLower (s : String) : String :=
  String.mk (s.toList.map pyLowerChar)

/-- Model of Python str.upper() on one character, restricted to the ASCII and
Cyrillic letters that occur in the program's data. -/
def pyUpperChar (c : Char) : Char :=
  if 'a' ≤ c ∧ c ≤ 'z' then Char.ofNat (c.toNat - 32)
  else if 0x430 ≤ c.toNat ∧ c.toNat ≤ 0x44F then Char.ofNat (c.toNat - 32)
  else if c.toNat = 0x451 then Char.ofNat 0x401
  else c

/-- Model of Python str.upper() on strings (ASCII plus Cyrillic). -/
def pyUpper (s : String) : String :=
  String.mk (s.toList.map pyUpperChar)

/-- Model of the source's value_str.replace(",", ".") and
text.replace(",", "."): every comma becomes a dot. -/
def commaToDot (s : String) : String :=
  String.mk (s.toList.map fun c => if c = ',' then '.' else c)

/-- Model of normalized.replace(",", " ").replace(".", " ") in
detect_currency_code: commas and dots become spaces. -/
def punctToSpace (s : String) : String :=
  String.mk (s.toList.map fun c => if c = ',' ∨ c = '.' then ' ' else c)

/-- Accumulator-style worker for pySplit. -/
def splitWsAux : List Char → List Char → List String
  | [], acc => if acc.isEmpty then [] else [String.mk acc.reverse]
  | c :: cs, acc =>
    if Char.isWhitespace c then
      if acc.isEmpty then splitWsAux cs []
      else String.mk acc.reverse :: splitWsAux cs []
    else splitWsAux cs (c :: acc)

/-- Model of Python str.split() with no argument: split on whitespace runs,
dropping empty pieces. -/
def pySplit (s : String) : List String :=
  splitWsAux s.toList []

/-- Contiguous-subsequence test on character lists. -/
def seqContains (needle : List Char) : List Char → Bool
  | [] => needle.isEmpty
  | c :: t => needle.isPrefixOf (c :: t) || seqContains needle t

/-- Model of the Python membership test needle in hay on strings. -/
def strContains (hay needle : String) : Bool :=
  seqContains needle.toList hay.toList

/-- Numeric value of a list of decimal digit characters. -/
def digitsToNat (ds : List Char) : Nat :=
  ds.foldl (fun a c => a * 10 + (c.toNat - 48)) 0

/-- Model of Python float(s) on the decimal-literal grammar: optional
surrounding whitespace, optional sign, digits with an optional decimal point
(at least one digit overall), and an optional decimal exponent.  The
underscore digit grouping and the inf/nan literals accepted by Python are
outside the model. -/
def pyFloat (s : String) : Option ℚ :=
  let cs0 := (pyStrip s).toList
  let sgncs : ℚ × List Char :=
    match cs0 with
    | '+' :: r => (1, r)
    | '-' :: r => (-1, r)
    | r => (1, r)
  let ip := sgncs.2.takeWhile Char.isDigit
  let rest1 := sgncs.2.dropWhile Char.isDigit
  let fprest : List Char × List Char :=
    match rest1 with
    | '.' :: r => (r.takeWhile Char.isDigit, r.dropWhile Char.isDigit)
    | r => ([], r)
  if ip.isEmpty ∧ fprest.1.isEmpty then none
  else
    let mant : ℚ :=
      sgncs.1 * ((digitsToNat ip : ℚ) +
        (digitsToNat fprest.1 : ℚ) / ((10 : ℚ) ^ fprest.1.length))
    match fprest.2 with
    | [] => some mant
    | 'e' :: r =>
      match
        (match r with
         | '+' :: r2 => (true, r2)
         | '-' :: r2 => (false, r2)
         | r2 => (true, r2)) with
      | (pos, r2) =>
        if r2.isEmpty ∨ ¬ (r2.all Char.isDigit) then none
        else if pos then some (mant * (10 : ℚ) ^ digitsToNat r2)
        else some (mant / (10 : ℚ) ^ digitsToNat r2)
    | 'E' :: r =>
      match
        (match r with
         | '+' :: r2 => (true, r2)
         | '-' :: r2 => (false, r2)
         | r2 => (true, r2)) with
      | (pos, r2) =>
        if r2.isEmpty ∨ ¬ (r2.all Char.isDigit) then none
        else if pos then some (mant * (10 : ℚ) ^ digitsToNat r2)
        else some (mant / (10 : ℚ) ^ digitsToNat r2)
    | _ => none

/-- Model of Python int(s): optional surrounding whitespace, optional sign,
then a nonempty run of decimal digits (underscore grouping not modelled). -/
def pyInt (s : String) : Option Int :=
  let cs0 := (pyStrip s).toList
  let sgncs : Int × List Char :=
    match cs0 with
    | '+' :: r => (1, r)
    | '-' :: r => (-1, r)
    | r => (1, r)
  if sgncs.2.isEmpty ∨ ¬ (sgncs.2.all Char.isDigit) then none
  else some (sgncs.1 * (digitsToNat sgncs.2 : Int))

/-- Python-level exceptions that the modelled fragments can raise. -/
inductive PyErr where
  | zeroDivision : PyErr
deriving DecidableEq

/-- Model of Python division on numbers: raises ZeroDivisionError on a zero
divisor instead of returning a value. -/
def pyDiv (a b : ℚ) : Except PyErr ℚ :=
  if b = 0 then Except.error PyErr.zeroDivision else Except.ok (a / b)

/-- Model of Python dict assignment d[k] = v on an insertion-ordered
association list: an existing key keeps its position and gets the new value,
a new key is appended at the end. -/
def dictInsert {α : Type} (k : String) (v : α) : List (String × α) → List (String × α)
  | [] => [(k, v)]
  | (k0, v0) :: rest =>
    if k0 = k then (k, v) :: rest else (k0, v0) :: dictInsert k v rest

/-- Calendar date, the datetime values of the source restricted to their date
component (the only part the program uses). -/
structure Date where
  day : Nat
  month : Nat
  year : Nat
deriving DecidableEq

/-- Day count of a month, with the Gregorian leap-year rule, as validated by
Python datetime.strptime. -/
def daysInMonth (m y : Nat) : Nat :=
  if m = 2 then
    if y % 4 = 0 ∧ (y % 100 ≠ 0 ∨ y % 400 = 0) then 29 else 28
  else if m = 4 ∨ m = 6 ∨ m = 9 ∨ m = 11 then 30
  else 31

/-- Model of datetime.strptime(s, "%d.%m.%Y"): one-or-two-digit day and
month, one-to-four-digit year, dot separated, validated as a calendar date;
none models the ValueError raised on any other input. -/
def pyStrptime (s : String) : Option Date :=
  match (s.toList.splitOn '.').map String.mk with
  | [ds, ms, ys] =>
    if ds.toList.all Char.isDigit ∧ 1 ≤ ds.length ∧ ds.length ≤ 2 ∧
       ms.toList.all Char.isDigit ∧ 1 ≤ ms.length ∧ ms.length ≤ 2 ∧
       ys.toList.all Char.isDigit ∧ 1 ≤ ys.length ∧ ys.length ≤ 4 then
      let d := digitsToNat ds.toList
      let m := digitsToNat ms.toList
      let y := digitsToNat ys.toList
      if 1 ≤ m ∧ m ≤ 12 ∧ 1 ≤ d ∧ d ≤ daysInMonth m y then
        some { day := d, month := m, year := y }
      else none
    else none
  | _ => none

/-- One Valute element of the feed, holding the text of its CharCode,
Nominal, Value and Name children; a missing child is none, matching the
findtext defaults of the source. -/
structure Valute where
  charCode : Option String
  nominal : Option String
  value : Option String
  name : Option String
deriving DecidableEq

/-- Root element of a feed that parsed as well-formed markup: the optional
Date attribute and the list of Valute elements in document order. -/
structure Root where
  dateAttr : Option String
  valutes : List Valute
deriving DecidableEq

/-- Rate mapping of the source: currency code to rubles per unit, in
insertion order. -/
abbrev RateT := List (String × ℚ)

/-- Name mapping of the source: currency code to display name, in insertion
order. -/
abbrev NameT := List (String × String)

/-- Outcome of the per-record body of the fetch loop: the record is skipped
(empty code, or int()/float() raised ValueError), the record raises an
uncaught ZeroDivisionError (numeric nominal equal to zero), or the record
contributes a code, a rate and a display name. -/
inductive RecStep where
  | skip : RecStep
  | crash : RecStep
  | entry (code : String) (rate : ℚ) (name : String) : RecStep
deriving DecidableEq

/-- Translation of the loop body over one Valute in fetch_cbr_rates. -/
def processValute (v : Valute) : RecStep :=
  let char_code := pyUpper (v.charCode.getD "")
  if char_code = "" then RecStep.skip
  else
    match pyInt (v.nominal.getD "1") with
    | none => RecStep.skip
    | some nominal =>
      match pyFloat (commaToDot (v.value.getD "0")) with
      | none => RecStep.skip
      | some value =>
        if nominal = 0 then RecStep.crash
        else RecStep.entry char_code (value / (nominal : ℚ)) (v.name.getD char_code)

/-- Code carried by an entry step, none for skip and crash. -/
def entryCode : RecStep → Option String
  | RecStep.entry c _ _ => some c
  | _ => none

/-- Predicate used as a record-level hypothesis: a record either does not
contribute an entry, or contributes a non-RUB code with a positive rate. -/
def goodEntryB : RecStep → Bool
  | RecStep.entry c q _ => (c ≠ "RUB" : Bool) && decide (0 < q)
  | _ => true

/-- Initial rate dictionary of fetch_cbr_rates: the base currency at rate 1. -/
def initRates : RateT := [("RUB", 1)]

/-- Initial name dictionary of fetch_cbr_rates: the base currency name. -/
def initNames : NameT := [("RUB", "Российский рубль")]

/-- Failures of a fetch attempt: requests/raise_for_status failure, XML that
is not well-formed, a ValueError from strptime on a malformed date
attribute, or a ZeroDivisionError from a zero-nominal record. -/
inductive FetchErr where
  | network : FetchErr
  | xmlError : FetchErr
  | dateError : FetchErr
  | zeroDivision : FetchErr
deriving DecidableEq

/-- Translation of the for valute in root.findall("Valute") loop: left fold
over the records, building both dictionaries, aborting on an uncaught
per-record exception. -/
def foldValutes : List Valute → RateT → NameT → Except FetchErr (RateT × NameT)
  | [], r, n => Except.ok (r, n)
  | v :: vs, r, n =>
    match processValute v with
    | RecStep.skip => foldValutes vs r n
    | RecStep.crash => Except.error FetchErr.zeroDivision
    | RecStep.entry c q nm => foldValutes vs (dictInsert c q r) (dictInsert c nm n)

/-- Translation of the date handling of fetch_cbr_rates: a missing or empty
Date attribute falls back to the current date, a nonempty attribute is
parsed with strptime and a parse failure propagates as an exception. -/
def parseDateAttr (nowDate : Date) (attr : Option String) : Except FetchErr Date :=
  match attr with
  | none => Except.ok nowDate
  | some ds =>
    if ds = "" then Except.ok nowDate
    else
      match pyStrptime ds with
      | some d => Except.ok d
      | none => Except.error FetchErr.dateError

/-- Translation of the parsing part of fetch_cbr_rates on an already
well-formed root: date attribute first, then the record loop. -/
def parseFeed (nowDate : Date) (root : Root) : Except FetchErr (RateT × NameT × Date) :=
  match parseDateAttr nowDate root.dateAttr with
  | Except.error e => Except.error e
  | Except.ok d =>
    match foldValutes root.valutes initRates initNames with
    | Except.error e => Except.error e
    | Except.ok (r, n) => Except.ok (r, n, d)

/-- Outcome of the network and markup layer, the part of fetch_cbr_rates
that is outside the pure model: the request raised or returned a non-success
status, the body was not well-formed XML, or a well-formed root was
obtained. -/
inductive FeedResponse where
  | netFail : FeedResponse
  | badXml : FeedResponse
  | xml (root : Root) : FeedResponse
deriving DecidableEq

/-- Module-level cache of the source, made explicit: _rates_cache,
_names_cache, _date_cache and _last_fetch_ts. -/
structure CacheState where
  rates : Option RateT
  names : Option NameT
  date : Option Date
  lastFetchTs : Option ℚ
deriving DecidableEq

/-- Cache time-to-live of the source, in seconds. -/
def CACHE_TTL_SECONDS : ℚ := 600

/-- Translation of the cache-validity test at the top of fetch_cbr_rates. -/
def cacheHit (force : Bool) (nowTs : ℚ) (st : CacheState) : Bool :=
  !force && st.rates.isSome && st.names.isSome && st.date.isSome &&
    (match st.lastFetchTs with
     | some ts => decide (nowTs - ts < CACHE_TTL_SECONDS)
     | none => false)

/-- Translation of the refresh path of fetch_cbr_rates: network and markup
failures and parse failures propagate and leave the cache untouched; a
successful parse replaces all four cache fields.  The Bool records that the
underlying network fetch was attempted. -/
def performFetch (nowTs : ℚ) (nowDate : Date) (resp : FeedResponse) (st : CacheState) :
    Except FetchErr (RateT × NameT × Date) × CacheState × Bool :=
  match resp with
  | FeedResponse.netFail => (Except.error FetchErr.network, st, true)
  | FeedResponse.badXml => (Except.error FetchErr.xmlError, st, true)
  | FeedResponse.xml root =>
    match parseFeed nowDate root with
    | Except.error e => (Except.error e, st, true)
    | Except.ok (r, n, d) =>
      (Except.ok (r, n, d),
       { rates := some r, names := some n, date := some d, lastFetchTs := some nowTs },
       true)

/-- Translation of fetch_cbr_rates: serve the cache when it is fresh and
complete and force is not set, otherwise run the refresh path. -/
def fetch_cbr_rates (force : Bool) (nowTs : ℚ) (nowDate : Date)
    (resp : FeedResponse) (st : CacheState) :
    Except FetchErr (RateT × NameT × Date) × CacheState × Bool :=
  match st.rates, st.names, st.date with
  | some r, some n, some d =>
    if cacheHit force nowTs st then (Except.ok (r, n, d), st, false)
    else performFetch nowTs nowDate resp st
  | _, _, _ => performFetch nowTs nowDate resp st

/-- Translation of normalize_text: strip, lower, fold the letter ё to е. -/
def normalize_text (s : String) : String :=
  String.mk ((pyLower (pyStrip s)).toList.map fun c => if c = 'ё' then 'е' else c)

/-- Alias dictionary of detect_currency_code, in source order. -/
def aliases : List (String × String) :=
  [("rub", "RUB"), ("rur", "RUB"), ("руб", "RUB"), ("рубль", "RUB"),
   ("рубли", "RUB"), ("рублей", "RUB"), ("россия", "RUB"), ("рф", "RUB"),
   ("russia", "RUB"),
   ("usd", "USD"), ("доллар", "USD"), ("доллары", "USD"), ("долларов", "USD"),
   ("бакс", "USD"), ("баксы", "USD"), ("сша", "USD"), ("usa", "USD"),
   ("america", "USD"), ("америка", "USD"),
   ("kzt", "KZT"), ("тенге", "KZT"), ("казахстан", "KZT"),
   ("казахстанский", "KZT"), ("казахстана", "KZT"),
   ("thb", "THB"), ("бат", "THB"), ("баты", "THB"), ("батов", "THB"),
   ("тайланд", "THB"), ("тайский", "THB"), ("thailand", "THB")]

/-- Translation of the first loop of detect_currency_code: first token that
is an alias key wins. -/
def aliasScan : List String → Option String
  | [] => none
  | t :: ts =>
    match List.lookup t aliases with
    | some c => some c
    | none => aliasScan ts

/-- Translation of the second loop of detect_currency_code: first token
whose uppercase form is a key of the rate mapping wins. -/
def isoScan (rates : RateT) : List String → Option String
  | [] => none
  | t :: ts =>
    if (List.lookup (pyUpper t) rates).isSome then some (pyUpper t)
    else isoScan rates ts

/-- Translation of the third loop of detect_currency_code: first currency,
in insertion order, whose normalized display name contains the normalized
phrase wins. -/
def nameScan (normalized : String) : NameT → Option String
  | [] => none
  | p :: rest =>
    if strContains (normalize_text p.2) normalized then some p.1
    else nameScan normalized rest

/-- Token list of detect_currency_code: the normalized phrase with commas
and dots turned into spaces, split on whitespace. -/
def detectTokens (raw : String) : List String :=
  pySplit (punctToSpace (normalize_text raw))

/-- Translation of detect_currency_code: the three resolution tiers in
source order. -/
def detect_currency_code (raw : String) (rates : RateT) (names : NameT) : Option String :=
  let normalized := normalize_text raw
  let tokens := pySplit (punctToSpace normalized)
  match aliasScan tokens with
  | some c => some c
  | none =>
    match isoScan rates tokens with
    | some c => some c
    | none => nameScan normalized names

/-- Translation of parse_amount_and_currency: comma-to-dot, strip, split on
whitespace; the first token must parse as a float, remaining tokens are
rejoined with single spaces. -/
def parse_amount_and_currency (text : String) : Option ℚ × Option String :=
  let cleaned := pyStrip (commaToDot text)
  let parts := pySplit cleaned
  match parts with
  | [] => (none, none)
  | p0 :: rest =>
    match pyFloat p0 with
    | none => (none, none)
    | some amount =>
      match rest with
      | [] => (some amount, none)
      | _ => (some amount, some (String.intercalate " " rest))

/-- Observable outcome of one handle_convert invocation on a text message:
which reply is sent, or an uncaught Python exception escaping the handler. -/
inductive ConvertReply where
  | missingAmount : ConvertReply
  | missingCurrency : ConvertReply
  | ratesUnavailable : ConvertReply
  | unknownCurrency (raw : String) : ConvertReply
  | notQuoted (code : String) : ConvertReply
  | incompleteTargets : ConvertReply
  | crash : ConvertReply
  | success (code : String) (inRub inUsd inKzt inThb : ℚ) (d : Date) : ConvertReply
deriving DecidableEq

/-- Translation of the decision core of handle_convert, with the result of
the fetch_cbr_rates call (whose exceptions the handler catches) passed as an
argument. -/
def handle_convert (text : String)
    (fetched : Except FetchErr (RateT × NameT × Date)) : ConvertReply :=
  let user_text := pyStrip text
  match parse_amount_and_currency user_text with
  | (none, _) => ConvertReply.missingAmount
  | (some _, none) => ConvertReply.missingCurrency
  | (some amount, some raw) =>
    match fetched with
    | Except.error _ => ConvertReply.ratesUnavailable
    | Except.ok (rates, names, cbr_date) =>
      match detect_currency_code raw rates names with
      | none => ConvertReply.unknownCurrency raw
      | some code =>
        match List.lookup code rates with
        | none => ConvertReply.notQuoted code
        | some rub_per_unit =>
          let amount_in_rub := amount * rub_per_unit
          match List.lookup "USD" rates, List.lookup "KZT" rates,
              List.lookup "THB" rates with
          | some u, some k, some t =>
            match pyDiv amount_in_rub u with
            | Except.error _ => ConvertReply.crash
            | Except.ok inUsd =>
              match pyDiv amount_in_rub k with
              | Except.error _ => ConvertReply.crash
              | Except.ok inKzt =>
                match pyDiv amount_in_rub t with
                | Except.error _ => ConvertReply.crash
                | Except.ok inThb =>
                  ConvertReply.success code amount_in_rub inUsd inKzt inThb cbr_date
          | _, _, _ => ConvertReply.incompleteTargets

/-- Concrete feed record: a normal USD quote. -/
def vUSD : Valute :=
  { charCode := some "USD", nominal := some "1", value := some "90,5",
    name := some "Доллар США" }

/-- Concrete feed record: code RUB with value 0, numerically parseable. -/
def vRUBzero : Valute :=
  { charCode := some "RUB", nominal := some "1", value := some "0",
    name := some "Тест" }

/-- Concrete feed record: numeric nominal equal to zero. -/
def vZeroNominal : Valute :=
  { charCode := some "XXX", nominal := some "0", value := some "10",
    name := some "Плохая" }

/-- Concrete feed record: non-numeric value text. -/
def vBadValue : Valute :=
  { charCode := some "XYZ", nominal := some "1", value := some "abc",
    name := some "Хлам" }

/-- Concrete date used as a cached publication date. -/
def d2020 : Date := { day := 1, month := 1, year := 2020 }

/-- Concrete date carried by the example feeds' Date attribute. -/
def d2002 : Date := { day := 2, month := 3, year := 2002 }

/-- Concrete date standing for the current date at fetch time. -/
def dOct : Date := { day := 5, month := 10, year := 2025 }

/-- Concrete feed with a date attribute and one USD record. -/
def rootUSD : Root := { dateAttr := some "02.03.2002", valutes := [vUSD] }

/-- Concrete feed whose only record carries code RUB and value 0. -/
def rootRUBzero : Root := { dateAttr := some "02.03.2002", valutes := [vRUBzero] }

/-- Concrete feed with one good record followed by a zero-nominal record. -/
def rootCrash : Root := { dateAttr := some "02.03.2002", valutes := [vUSD, vZeroNominal] }

/-- Concrete feed with records but no date attribute. -/
def rootNoDate : Root := { dateAttr := none, valutes := [vUSD] }

/-- Concrete feed with neither records nor a date attribute. -/
def rootEmptyNoDate : Root := { dateAttr := none, valutes := [] }

/-- Concrete feed with a date attribute and no records. -/
def rootEmpty : Root := { dateAttr := some "02.03.2002", valutes := [] }

/-- Name table holding only the base currency. -/
def baseNames : NameT := [("RUB", "Российский рубль")]

/-- Cache state holding a previously fetched table. -/
def c2st0 : CacheState :=
  { rates := some [("RUB", 1)], names := some baseNames, date := some d2020,
    lastFetchTs := some 0 }

/-- Cache state before the first fetch. -/
def emptySt : CacheState :=
  { rates := none, names := none, date := none, lastFetchTs := none }

/-- Cache state right after a successful fetch of the empty feed at time 0. -/
def st1c : CacheState :=
  { rates := some initRates, names := some initNames, date := some d2002,
    lastFetchTs := some 0 }

/-- Rate table whose USD target rate is present but exactly zero. -/
def c9rates : RateT := [("RUB", 1), ("USD", 0), ("KZT", 1), ("THB", 1)]

/-- Rate table for the tier-3 ordering counterexample. -/
def c10rates : RateT := [("RUB", 1), ("AAA", 2), ("BBB", 3)]

/-- Name table where two currencies' names contain the alias word for the
dollar. -/
def c10names : NameT :=
  [("RUB", "Российский рубль"), ("AAA", "доллар великий"), ("BBB", "доллар малый")]

/-- Rate table for the alias-over-substring witness. -/
def c4rates : RateT := [("RUB", 1), ("THB", 2), ("ZZZ", 3)]

/-- Name table where a currency other than THB has a name containing the
alias word for the baht. -/
def c4names : NameT :=
  [("RUB", "Российский рубль"), ("THB", "Тайский бат"), ("ZZZ", "Старый бат")]

/-- Rate table containing a currency with no alias, reachable via tier 2. -/
def c5rates : RateT := [("RUB", 1), ("GBP", 120)]

/-- Name table matching c5rates. -/
def c5names : NameT := [("RUB", "Российский рубль"), ("GBP", "Фунт стерлингов")]

/-- Membership in a dict after assignment: the new pair or an old pair. -/
theorem mem_dictInsert {α : Type} (k : String) (v : α) (l : List (String × α))
    (c : String) (q : α) (h : (c, q) ∈ dictInsert k v l) :
    (c = k ∧ q = v) ∨ (c, q) ∈ l := by
  induction l with
  | nil =>
    simp [dictInsert] at h
    exact Or.inl h
  | cons hd tl ih =>
    obtain ⟨k0, v0⟩ := hd
    by_cases hk : k0 = k
    · simp only [dictInsert, if_pos hk] at h
      rcases List.mem_cons.mp h with h1 | h1
      · rcases Prod.mk.injEq .. ▸ h1 with ⟨hc, hq⟩
        exact Or.inl ⟨hc, hq⟩
      · exact Or.inr (List.mem_cons_of_mem _ h1)
    · simp only [dictInsert, if_neg hk] at h
      rcases List.mem_cons.mp h with h1 | h1
      · exact Or.inr (List.mem_cons.mpr (Or.inl h1))
      · rcases ih h1 with h2 | h2
        · exact Or.inl h2
        · exact Or.inr (List.mem_cons_of_mem _ h2)

/-- Assignment preserves a Boolean invariant of all dict entries. -/
theorem all_dictInsert {α : Type} (p : String × α → Bool) (k : String) (v : α)
    (l : List (String × α)) (hl : l.all p = true) (hp : p (k, v) = true) :
    (dictInsert k v l).all p = true := by
  induction l with
  | nil => simp [dictInsert, hp]
  | cons hd tl ih =>
    obtain ⟨k0, v0⟩ := hd
    simp only [List.all_cons, Bool.and_eq_true] at hl
    by_cases hk : k0 = k
    · simp [dictInsert, hk, hp, hl.2]
    · simp [dictInsert, hk, hl.1, ih hl.2]

/-- Assignment under one key does not change lookups of another key. -/
theorem lookup_dictInsert_ne {α : Type} (c k : String) (v : α)
    (l : List (String × α)) (hne : c ≠ k) :
    List.lookup c (dictInsert k v l) = List.lookup c l := by
  induction l with
  | nil => simp [dictInsert, List.lookup, beq_eq_false_iff_ne.mpr hne]
  | cons hd tl ih =>
    obtain ⟨k0, v0⟩ := hd
    by_cases hk : k0 = k
    · subst hk
      simp [dictInsert, List.lookup, beq_eq_false_iff_ne.mpr hne]
    · simp [dictInsert, hk, List.lookup, ih]

/-- Assignment keeps a head entry with a different key in head position. -/
theorem dictInsert_cons_ne {α : Type} (k : String) (v : α) (k0 : String) (v0 : α)
    (tl : List (String × α)) (h : k0 ≠ k) :
    dictInsert k v ((k0, v0) :: tl) = (k0, v0) :: dictInsert k v tl := by
  simp [dictInsert, h]

/-- A key that appears among the pairs of an association list has a lookup. -/
theorem lookup_isSome_of_mem {α : Type} (c : String) (x : α) (l : List (String × α))
    (h : (c, x) ∈ l) : (List.lookup c l).isSome = true := by
  induction l with
  | nil => simp at h
  | cons hd tl ih =>
    obtain ⟨k0, v0⟩ := hd
    rcases List.mem_cons.mp h with h1 | h1
    · rcases Prod.mk.injEq .. ▸ h1 with ⟨hc, _⟩
      simp [List.lookup, hc]
    · by_cases hc : c = k0
      · simp [List.lookup, hc]
      · simp [List.lookup, beq_eq_false_iff_ne.mpr hc, ih h1]

/-- Alias loop of the resolver as a first-hit search over the token list. -/
theorem aliasScan_eq (ts : List String) :
    aliasScan ts = ts.findSome? (fun t => List.lookup t aliases) := by
  induction ts with
  | nil => rfl
  | cons t ts ih =>
    simp only [aliasScan, List.findSome?]
    cases List.lookup t aliases <;> simp [ih]

/-- ISO loop of the resolver as a first-hit search over the token list. -/
theorem isoScan_eq (rates : RateT) (ts : List String) :
    isoScan rates ts =
      ts.findSome? (fun t =>
        if (List.lookup (pyUpper t) rates).isSome then some (pyUpper t) else none) := by
  induction ts with
  | nil => rfl
  | cons t ts ih =>
    simp only [isoScan, List.findSome?]
    by_cases h : (List.lookup (pyUpper t) rates).isSome = true <;> simp [h, ih]

/-- Name loop of the resolver as a first-hit search over the name list. -/
theorem nameScan_eq (nz : String) (l : NameT) :
    nameScan nz l =
      (l.find? fun p => strContains (normalize_text p.2) nz).map Prod.fst := by
  induction l with
  | nil => rfl
  | cons p rest ih =>
    simp only [nameScan, List.find?]
    by_cases h : strContains (normalize_text p.2) nz = true <;> simp [h, ih]

/-- A code produced by the ISO loop is a key of the rate mapping. -/
theorem isoScan_lookup (rates : RateT) (ts : List String) (c : String)
    (h : isoScan rates ts = some c) : (List.lookup c rates).isSome = true := by
  induction ts with
  | nil => simp [isoScan] at h
  | cons t ts ih =>
    simp only [isoScan] at h
    by_cases hl : (List.lookup (pyUpper t) rates).isSome = true
    · rw [if_pos hl] at h
      rcases Option.some.injEq .. ▸ h with hc
      exact hc ▸ hl
    · rw [if_neg hl] at h
      exact ih h

/-- A code produced by the name loop is a key of the name mapping. -/
theorem nameScan_lookup (nz : String) (l : NameT) (c : String)
    (h : nameScan nz l = some c) : (List.lookup c l).isSome = true := by
  induction l with
  | nil => simp [nameScan] at h
  | cons p rest ih =>
    obtain ⟨k0, v0⟩ := p
    simp only [nameScan] at h
    by_cases hs : strContains (normalize_text v0) nz = true
    · rw [if_pos hs] at h
      rcases Option.some.injEq .. ▸ h with hc
      simp [List.lookup, hc]
    · rw [if_neg hs] at h
      by_cases hc : c = k0
      · simp [List.lookup, hc]
      · simp [List.lookup, beq_eq_false_iff_ne.mpr hc, ih h]

/-- A record with an empty code or a non-numeric nominal or value is skipped
by the record loop. -/
theorem processValute_skip (v : Valute)
    (hbad : pyUpper (v.charCode.getD "") = "" ∨ pyInt (v.nominal.getD "1") = none ∨
      pyFloat (commaToDot (v.value.getD "0")) = none) :
    processValute v = RecStep.skip := by
  unfold processValute
  rcases hbad with h | h | h
  · simp [h]
  · by_cases hc : pyUpper (v.charCode.getD "") = ""
    · simp [hc]
    · simp [hc, h]
  · by_cases hc : pyUpper (v.charCode.getD "") = ""
    · simp [hc]
    · cases hn : pyInt (v.nominal.getD "1") with
      | none => simp [hc, hn]
      | some n => simp [hc, hn, h]

/-- Removing one skipped record anywhere in the feed does not change the
outcome of the record loop. -/
theorem foldValutes_skip_middle (pre post : List Valute) (v : Valute)
    (r : RateT) (n : NameT) (hskip : processValute v = RecStep.skip) :
    foldValutes (pre ++ v :: post) r n = foldValutes (pre ++ post) r n := by
  induction pre generalizing r n with
  | nil => simp [foldValutes, hskip]
  | cons u pre ih =>
    cases h : processValute u with
    | skip => simp only [List.cons_append, foldValutes, h]; exact ih r n
    | crash => simp only [List.cons_append, foldValutes, h]
    | entry c q nm => simp only [List.cons_append, foldValutes, h]; exact ih _ _

/-- Invariant of the record loop: when every record either contributes no
entry or contributes a positive non-RUB rate, positivity of all rates and
the base entry survive the loop. -/
theorem foldValutes_inv (vs : List Valute) (r : RateT) (n : NameT)
    (r' : RateT) (n' : NameT)
    (h : foldValutes vs r n = Except.ok (r', n'))
    (hrec : ∀ v ∈ vs, goodEntryB (processValute v) = true)
    (hall : (r.all fun p => decide (0 < p.2)) = true)
    (hrub : List.lookup "RUB" r = some 1) :
    ((r'.all fun p => decide (0 < p.2)) = true) ∧ List.lookup "RUB" r' = some 1 := by
  induction vs generalizing r n with
  | nil =>
    simp only [foldValutes, Except.ok.injEq, Prod.mk.injEq] at h
    rw [← h.1]
    exact ⟨hall, hrub⟩
  | cons v vs ih =>
    cases hp : processValute v with
    | skip =>
      simp only [foldValutes, hp] at h
      exact ih _ _ h (fun u hu => hrec u (List.mem_cons_of_mem _ hu)) hall hrub
    | crash => simp [foldValutes, hp] at h
    | entry c q nm =>
      simp only [foldValutes, hp] at h
      have hg := hrec v (List.mem_cons_self _ _)
      rw [hp] at hg
      simp only [goodEntryB, Bool.and_eq_true, decide_eq_true_eq] at hg
      refine ih _ _ h (fun u hu => hrec u (List.mem_cons_of_mem _ hu)) ?_ ?_
      · exact all_dictInsert _ _ _ _ hall (by simp [hg.2])
      · rw [lookup_dictInsert_ne "RUB" c q r (fun he => hg.1 he.symm)]
        exact hrub

/-- Invariant of the record loop: when no record contributes an entry under
the key of the head of the name dictionary, that head entry stays in head
position. -/
theorem foldValutes_head (vs : List Valute) (r : RateT) (hd : String × String)
    (tl : NameT) (r' : RateT) (n' : NameT)
    (h : foldValutes vs r (hd :: tl) = Except.ok (r', n'))
    (hno : ∀ v ∈ vs, entryCode (processValute v) ≠ some hd.1) :
    ∃ tl2, n' = hd :: tl2 := by
  induction vs generalizing r tl with
  | nil =>
    simp only [foldValutes, Except.ok.injEq, Prod.mk.injEq] at h
    exact ⟨tl, h.2.symm⟩
  | cons v vs ih =>
    cases hp : processValute v with
    | skip =>
      simp only [foldValutes, hp] at h
      exact ih _ _ h (fun u hu => hno u (List.mem_cons_of_mem _ hu))
    | crash => simp [foldValutes, hp] at h
    | entry c q nm =>
      simp only [foldValutes, hp] at h
      have hc : c ≠ hd.1 := by
        have h0 := hno v (List.mem_cons_self _ _)
        rw [hp] at h0
        simpa [entryCode] using h0
      obtain ⟨k0, v0⟩ := hd
      rw [dictInsert_cons_ne c nm k0 v0 tl (fun he => hc he.symm)] at h
      exact ih _ _ h (fun u hu => hno u (List.mem_cons_of_mem _ hu))

/-- A successful refresh replaces all four cache fields and records that the
network fetch was attempted. -/
theorem performFetch_ok (nowTs : ℚ) (nowDate : Date) (resp : FeedResponse)
    (st : CacheState) (r : RateT) (n : NameT) (d : Date) (st' : CacheState) (b : Bool)
    (h : performFetch nowTs nowDate resp st = (Except.ok (r, n, d), st', b)) :
    st' = { rates := some r, names := some n, date := some d,
            lastFetchTs := some nowTs } ∧ b = true := by
  cases resp with
  | netFail => simp [performFetch] at h
  | badXml => simp [performFetch] at h
  | xml root =>
    simp only [performFetch] at h
    cases hp : parseFeed nowDate root with
    | error e => rw [hp] at h; simp at h
    | ok trip =>
      obtain ⟨r2, n2, d2⟩ := trip
      rw [hp] at h
      simp only [Prod.mk.injEq, Except.ok.injEq] at h
      obtain ⟨⟨hr, hn, hd⟩, hst, hb⟩ := h
      subst hr; subst hn; subst hd
      exact ⟨hst.symm, hb.symm⟩

/-- A failed refresh leaves the cache exactly as it was, and records that
the network fetch was attempted. -/
theorem performFetch_error (nowTs : ℚ) (nowDate : Date) (resp : FeedResponse)
    (st : CacheState) (e : FetchErr) (st' : CacheState) (b : Bool)
    (h : performFetch nowTs nowDate resp st = (Except.error e, st', b)) :
    st' = st ∧ b = true := by
  cases resp with
  | netFail =>
    simp only [performFetch, Prod.mk.injEq] at h
    exact ⟨h.2.1.symm, h.2.2.symm⟩
  | badXml =>
    simp only [performFetch, Prod.mk.injEq] at h
    exact ⟨h.2.1.symm, h.2.2.symm⟩
  | xml root =>
    simp only [performFetch] at h
    cases hp : parseFeed nowDate root with
    | error e2 =>
      rw [hp] at h
      simp only [Prod.mk.injEq] at h
      exact ⟨h.2.1.symm, h.2.2.symm⟩
    | ok trip =>
      obtain ⟨r2, n2, d2⟩ := trip
      rw [hp] at h
      simp at h

/-- A call of fetch_cbr_rates that reports a performed fetch and succeeds
leaves the cache holding exactly the returned table with the call's
timestamp. -/
theorem fetch_ok_state (force : Bool) (nowTs : ℚ) (nowDate : Date)
    (resp : FeedResponse) (st : CacheState) (r : RateT) (n : NameT) (d : Date)
    (st' : CacheState)
    (h : fetch_cbr_rates force nowTs nowDate resp st = (Except.ok (r, n, d), st', true)) :
    st' = { rates := some r, names := some n, date := some d,
            lastFetchTs := some nowTs } := by
  unfold fetch_cbr_rates at h
  split at h
  · split at h
    · simp at h
    · exact (performFetch_ok _ _ _ _ _ _ _ _ _ h).1
  · exact (performFetch_ok _ _ _ _ _ _ _ _ _ h).1

/-- Claim C1 counterexample: the well-formed feed rootRUBzero parses
successfully, but its record carries code RUB with value 0, so the resulting
table maps RUB to 0 — a rate that is neither exactly 1 nor strictly
positive. -/
theorem C1_counterexample :
    parseFeed d2020 rootRUBzero =
      Except.ok ([("RUB", 0)], [("RUB", "Тест")], d2002) ∧
    ¬ ((0 : ℚ) = 1 ∨ 0 < (0 : ℚ)) := by
  constructor
  · with_unfolding_all rfl
  · simp

/-- Claim C1 (amended): in a successfully parsed table the base currency RUB
maps to exactly 1 and every rate is strictly positive, provided every feed
record either contributes no entry or contributes a strictly positive rate
under a code other than RUB; a record with a zero or negative value, or with
code RUB, can break the invariant, as the counterexample shows. -/
theorem C1_parse_rates_positive (nd : Date) (root : Root) (r : RateT) (n : NameT) (d : Date)
    (hok : parseFeed nd root = Except.ok (r, n, d))
    (hrec : (root.valutes.all fun v => goodEntryB (processValute v)) = true) :
    List.lookup "RUB" r = some 1 ∧ (r.all fun p => decide (0 < p.2)) = true := by
  unfold parseFeed at hok
  cases hd : parseDateAttr nd root.dateAttr with
  | error e => rw [hd] at hok; simp at hok
  | ok d2 =>
    rw [hd] at hok
    cases hf : foldValutes root.valutes initRates initNames with
    | error e => rw [hf] at hok; simp at hok
    | ok rn =>
      obtain ⟨r2, n2⟩ := rn
      rw [hf] at hok
      simp only [Except.ok.injEq, Prod.mk.injEq] at hok
      obtain ⟨hr, hn, hdd⟩ := hok
      subst hr
      have hinv := foldValutes_inv root.valutes initRates initNames r2 n2 hf
        (fun v hv => List.all_eq_true.mp hrec v hv)
        (by with_unfolding_all rfl)
        (by with_unfolding_all rfl)
      exact ⟨hinv.2, hinv.1⟩

/-- Claim C1 witness: the amended theorem applied to the concrete feed
rootUSD. -/
theorem C1_witness :
    List.lookup "RUB" [("RUB", (1 : ℚ)), ("USD", 181 / 2)] = some 1 ∧
    (([("RUB", (1 : ℚ)), ("USD", 181 / 2)].all fun p => decide (0 < p.2)) = true) :=
  C1_parse_rates_positive d2020 rootUSD [("RUB", 1), ("USD", 181 / 2)]
    [("RUB", "Российский рубль"), ("USD", "Доллар США")] d2002
    (by with_unfolding_all rfl) (by with_unfolding_all rfl)

/-- Claim C2 counterexample: on a feed whose root lacks the date attribute
the parser does not fail with a format error — it substitutes the current
date dOct and the previously cached table in c2st0 is replaced. -/
theorem C2_counterexample :
    fetch_cbr_rates true 1000 dOct (FeedResponse.xml rootEmptyNoDate) c2st0 =
      (Except.ok ([("RUB", 1)], baseNames, dOct),
       { rates := some [("RUB", 1)], names := some baseNames, date := some dOct,
         lastFetchTs := some 1000 }, true) ∧
    ({ rates := some [("RUB", 1)], names := some baseNames, date := some dOct,
       lastFetchTs := some 1000 } : CacheState) ≠ c2st0 := by
  constructor
  · with_unfolding_all rfl
  · with_unfolding_all decide

/-- Claim C2 (amended): when the root lacks the date attribute, the parser
substitutes the supplied current date as the publication date and the fetch
succeeds, replacing the cache with the new table — the source's
fall-back-to-now behaviour rather than the failure the claim states. -/
theorem C2_missing_date_fallback (root : Root) (nd : Date) (now : ℚ) (st : CacheState)
    (r : RateT) (n : NameT)
    (hdate : root.dateAttr = none)
    (hfold : foldValutes root.valutes initRates initNames = Except.ok (r, n)) :
    fetch_cbr_rates true now nd (FeedResponse.xml root) st =
      (Except.ok (r, n, nd),
       { rates := some r, names := some n, date := some nd, lastFetchTs := some now },
       true) := by
  have hparse : parseFeed nd root = Except.ok (r, n, nd) := by
    unfold parseFeed
    rw [hdate]
    simp [parseDateAttr, hfold]
  unfold fetch_cbr_rates
  split
  · split
    · next hhit => simp [cacheHit] at hhit
    · simp [performFetch, hparse]
  · simp [performFetch, hparse]

/-- Claim C2 witness: the amended theorem applied to the concrete feed
rootNoDate over the prior cache c2st0. -/
theorem C2_witness :
    fetch_cbr_rates true 7 d2020 (FeedResponse.xml rootNoDate) c2st0 =
      (Except.ok ([("RUB", 1), ("USD", 181 / 2)],
                  [("RUB", "Российский рубль"), ("USD", "Доллар США")], d2020),
       { rates := some [("RUB", 1), ("USD", 181 / 2)],
         names := some [("RUB", "Российский рубль"), ("USD", "Доллар США")],
         date := some d2020, lastFetchTs := some 7 }, true) :=
  C2_missing_date_fallback rootNoDate d2020 7 c2st0
    [("RUB", 1), ("USD", 181 / 2)]
    [("RUB", "Российский рубль"), ("USD", "Доллар США")]
    rfl (by with_unfolding_all rfl)

/-- Claim C3 counterexample: in the feed rootCrash the single zero-nominal
record makes the whole parse fail with an uncaught division error, although
the same feed without that record parses fine — so one bad record does
invalidate the whole table. -/
theorem C3_counterexample :
    parseFeed d2020 rootCrash = Except.error FetchErr.zeroDivision ∧
    parseFeed d2020 rootUSD =
      Except.ok ([("RUB", 1), ("USD", 181 / 2)],
                 [("RUB", "Российский рубль"), ("USD", "Доллар США")], d2002) := by
  constructor
  · with_unfolding_all rfl
  · with_unfolding_all rfl

/-- Claim C3 (amended): a record with an empty code or a non-numeric nominal
or value is skipped individually — removing it does not change the outcome
of the record loop on the surrounding feed; however a record whose nominal
is the numeral zero is not merely skipped but aborts the whole parse, as the
counterexample shows. -/
theorem C3_bad_record_skipped (pre post : List Valute) (v : Valute)
    (r : RateT) (n : NameT)
    (hbad : pyUpper (v.charCode.getD "") = "" ∨ pyInt (v.nominal.getD "1") = none ∨
      pyFloat (commaToDot (v.value.getD "0")) = none) :
    foldValutes (pre ++ v :: post) r n = foldValutes (pre ++ post) r n :=
  foldValutes_skip_middle pre post v r n (processValute_skip v hbad)

/-- Claim C3 witness: the amended theorem applied to the concrete record
vBadValue placed before the good record vUSD. -/
theorem C3_witness :
    foldValutes ([] ++ vBadValue :: [vUSD]) initRates initNames =
      foldValutes ([] ++ [vUSD]) initRates initNames :=
  C3_bad_record_skipped [] [vUSD] vBadValue initRates initNames
    (Or.inr (Or.inr (by with_unfolding_all rfl)))

/-- Claim C4: the resolver applies its three tiers in fixed precedence — a
first-hit alias match decides the result for every rate and name table, an
ISO-code match decides it whenever the alias scan misses, and only when both
miss does the result come from the display-name substring scan. -/
theorem C4_tier_precedence (raw : String) (rates : RateT) (names : NameT) :
    (∀ c, (detectTokens raw).findSome? (fun t => List.lookup t aliases) = some c →
      detect_currency_code raw rates names = some c) ∧
    ((detectTokens raw).findSome? (fun t => List.lookup t aliases) = none →
      (∀ c, (detectTokens raw).findSome?
          (fun t => if (List.lookup (pyUpper t) rates).isSome then some (pyUpper t)
            else none) = some c →
        detect_currency_code raw rates names = some c) ∧
      ((detectTokens raw).findSome?
          (fun t => if (List.lookup (pyUpper t) rates).isSome then some (pyUpper t)
            else none) = none →
        detect_currency_code raw rates names =
          (names.find? fun p =>
            strContains (normalize_text p.2) (normalize_text raw)).map Prod.fst)) := by
  constructor
  · intro c hc
    unfold detectTokens at hc
    unfold detect_currency_code
    simp only [aliasScan_eq, hc]
  · intro h1
    unfold detectTokens at h1
    constructor
    · intro c hc
      unfold detectTokens at hc
      unfold detect_currency_code
      simp only [aliasScan_eq, isoScan_eq, h1, hc]
    · intro h2
      unfold detectTokens at h2
      unfold detect_currency_code
      simp only [aliasScan_eq, isoScan_eq, nameScan_eq, h1, h2]

/-- Claim C4 witness: for the phrase consisting of the baht alias word, the
alias tier answers THB even over the table c4names in which a different
currency's display name contains that very word. -/
theorem C4_witness :
    (detectTokens "бат").findSome? (fun t => List.lookup t aliases) = some "THB" ∧
    detect_currency_code "бат" c4rates c4names = some "THB" :=
  ⟨by with_unfolding_all rfl,
   (C4_tier_precedence "бат" c4rates c4names).1 "THB" (by with_unfolding_all rfl)⟩

/-- Claim C5 counterexample: on a table that quotes only the base currency,
the resolver still answers USD for the phrase usd through its alias tier,
although USD is not a key of the rate mapping. -/
theorem C5_counterexample :
    detect_currency_code "usd" [("RUB", (1 : ℚ))] baseNames = some "USD" ∧
    List.lookup "USD" [("RUB", (1 : ℚ))] = none := by
  constructor
  · with_unfolding_all rfl
  · with_unfolding_all rfl

/-- Claim C5 (amended): whenever the resolver returns a code that the alias
tier did not produce, that code is a key of the rate mapping or of the name
mapping; the alias tier itself returns fixed codes without consulting the
table, which is why the caller checks membership defensively. -/
theorem C5_resolver_known_codes (raw : String) (rates : RateT) (names : NameT)
    (c : String)
    (halias : (detectTokens raw).findSome? (fun t => List.lookup t aliases) = none)
    (hdet : detect_currency_code raw rates names = some c) :
    (List.lookup c rates).isSome = true ∨ (List.lookup c names).isSome = true := by
  unfold detectTokens at halias
  unfold detect_currency_code at hdet
  cases hi : isoScan rates (pySplit (punctToSpace (normalize_text raw))) with
  | some c2 =>
    simp only [aliasScan_eq, halias, hi, Option.some.injEq] at hdet
    subst hdet
    exact Or.inl (isoScan_lookup _ _ _ hi)
  | none =>
    simp only [aliasScan_eq, halias, hi] at hdet
    exact Or.inr (nameScan_lookup _ _ _ hdet)

/-- Claim C5 witness: the amended theorem applied to the phrase gbp over the
table c5rates, resolved through the ISO tier. -/
theorem C5_witness :
    ((detectTokens "gbp").findSome? (fun t => List.lookup t aliases) = none) ∧
    (detect_currency_code "gbp" c5rates c5names = some "GBP") ∧
    ((List.lookup "GBP" c5rates).isSome = true ∨
     (List.lookup "GBP" c5names).isSome = true) :=
  ⟨by with_unfolding_all rfl, by with_unfolding_all rfl,
   C5_resolver_known_codes "gbp" c5rates c5names "GBP"
     (by with_unfolding_all rfl) (by with_unfolding_all rfl)⟩

/-- Claim C6: extraction yields the missing-amount outcome exactly when
there is no first whitespace-delimited token of the comma-normalized input
or that token does not parse as a number; when an amount is produced it is
the parsed first token, with the missing-currency outcome exactly when no
token remains and otherwise the remaining tokens rejoined with single
spaces. -/
theorem C6_extract_characterization (text : String) :
    (parse_amount_and_currency text = (none, none) ↔
      ((pySplit (pyStrip (commaToDot text))).head?.bind pyFloat) = none) ∧
    (∀ a : ℚ, (parse_amount_and_currency text).1 = some a →
      ((pySplit (pyStrip (commaToDot text))).head?.bind pyFloat) = some a ∧
      (parse_amount_and_currency text).2 =
        (if ((pySplit (pyStrip (commaToDot text))).tail).isEmpty then none
         else some (String.intercalate " "
           ((pySplit (pyStrip (commaToDot text))).tail)))) := by
  unfold parse_amount_and_currency
  cases hp : pySplit (pyStrip (commaToDot text)) with
  | nil => simp [hp]
  | cons p0 rest =>
    cases hf : pyFloat p0 with
    | none => simp [hp, hf]
    | some a =>
      cases rest with
      | nil => simp [hp, hf]
      | cons q qs => simp [hp, hf]

/-- Claim C6 witness: the characterization applied to a concrete input with
a comma amount and a two-word currency phrase. -/
theorem C6_witness :
    (parse_amount_and_currency "12,5 доллар сша").1 = some (25 / 2) ∧
    ((pySplit (pyStrip (commaToDot "12,5 доллар сша"))).head?.bind pyFloat =
        some (25 / 2) ∧
      (parse_amount_and_currency "12,5 доллар сша").2 =
        (if ((pySplit (pyStrip (commaToDot "12,5 доллар сша"))).tail).isEmpty then none
         else some (String.intercalate " "
           ((pySplit (pyStrip (commaToDot "12,5 доллар сша"))).tail)))) :=
  ⟨by with_unfolding_all rfl,
   (C6_extract_characterization "12,5 доллар сша").2 (25 / 2)
     (by with_unfolding_all rfl)⟩

/-- Claim C7: after a call that actually fetched and succeeded at time t,
any second call without force strictly less than the 600-second TTL later
returns the same cached table, leaves the cache unchanged and performs no
underlying fetch — two calls inside the TTL window fetch exactly once. -/
theorem C7_cache_single_fetch (force : Bool) (t now : ℚ) (nd1 nd2 : Date)
    (resp1 resp2 : FeedResponse) (st0 st1 : CacheState)
    (r : RateT) (n : NameT) (d : Date)
    (h1 : fetch_cbr_rates force t nd1 resp1 st0 = (Except.ok (r, n, d), st1, true))
    (hwin : now - t < CACHE_TTL_SECONDS) :
    fetch_cbr_rates false now nd2 resp2 st1 = (Except.ok (r, n, d), st1, false) := by
  have hst : st1 = { rates := some r, names := some n, date := some d,
                     lastFetchTs := some t } :=
    fetch_ok_state force t nd1 resp1 st0 r n d st1 h1
  subst hst
  have hhit : cacheHit false now
      { rates := some r, names := some n, date := some d, lastFetchTs := some t } = true := by
    simp [cacheHit, hwin]
  unfold fetch_cbr_rates
  simp [hhit]

/-- Claim C7 witness: a first fetch at time 0 on the empty cache followed by
a second call at time 599 whose network layer would fail, served entirely
from the cache without fetching. -/
theorem C7_witness :
    fetch_cbr_rates false 0 d2020 (FeedResponse.xml rootEmpty) emptySt =
      (Except.ok (initRates, initNames, d2002), st1c, true) ∧
    fetch_cbr_rates false 599 d2020 FeedResponse.netFail st1c =
      (Except.ok (initRates, initNames, d2002), st1c, false) :=
  ⟨by with_unfolding_all rfl,
   C7_cache_single_fetch false 0 599 d2020 d2020 (FeedResponse.xml rootEmpty)
     FeedResponse.netFail emptySt st1c initRates initNames d2002
     (by with_unfolding_all rfl) (by with_unfolding_all decide)⟩

/-- Claim C8: whenever a fetch_cbr_rates call reports a failure, the whole
call returns that failure with the cache state bitwise unchanged — rates,
names, publication date and fetch timestamp all keep their previous values,
and the flag records that a fetch was attempted. -/
theorem C8_failure_preserves_cache (force : Bool) (nowTs : ℚ) (nowDate : Date)
    (resp : FeedResponse) (st : CacheState) (e : FetchErr)
    (h : (fetch_cbr_rates force nowTs nowDate resp st).1 = Except.error e) :
    fetch_cbr_rates force nowTs nowDate resp st = (Except.error e, st, true) := by
  rcases hE : fetch_cbr_rates force nowTs nowDate resp st with ⟨res, st2, b⟩
  rw [hE] at h
  simp only at h
  subst h
  have h2 : st2 = st ∧ b = true := by
    unfold fetch_cbr_rates at hE
    split at hE
    · split at hE
      · simp at hE
      · exact performFetch_error _ _ _ _ _ _ _ hE
    · exact performFetch_error _ _ _ _ _ _ _ hE
  rw [h2.1, h2.2]

/-- Claim C8 witness: the theorem applied to a network failure during a
forced refresh over the populated cache c2st0. -/
theorem C8_witness :
    (fetch_cbr_rates true 0 d2020 FeedResponse.netFail c2st0).1 =
      Except.error FetchErr.network ∧
    fetch_cbr_rates true 0 d2020 FeedResponse.netFail c2st0 =
      (Except.error FetchErr.network, c2st0, true) :=
  ⟨by with_unfolding_all rfl,
   C8_failure_preserves_cache true 0 d2020 FeedResponse.netFail c2st0
     FetchErr.network (by with_unfolding_all rfl)⟩

/-- Claim C9 counterexample: with the USD target rate present but exactly
zero, the handler neither surfaces the incomplete-rates reply nor produces a
value — the division raises an uncaught ZeroDivisionError. -/
theorem C9_counterexample :
    handle_convert "100 rub" (Except.ok (c9rates, baseNames, d2020)) =
      ConvertReply.crash ∧
    ConvertReply.crash ≠ ConvertReply.incompleteTargets := by
  constructor
  · with_unfolding_all rfl
  · with_unfolding_all decide

/-- Claim C9 (amended): when the three target codes are present in the
table, the handler crashes with an uncaught ZeroDivisionError if any of
their rates is exactly zero, and otherwise returns the converted amounts;
the incomplete-rates reply is reserved for a target code that is absent, not
zero-rated. -/
theorem C9_zero_target_rate (text : String) (rates : RateT) (names : NameT)
    (d : Date) (a : ℚ) (raw code : String) (rr u k t : ℚ)
    (hpa : parse_amount_and_currency (pyStrip text) = (some a, some raw))
    (hdet : detect_currency_code raw rates names = some code)
    (hcode : List.lookup code rates = some rr)
    (hu : List.lookup "USD" rates = some u)
    (hk : List.lookup "KZT" rates = some k)
    (ht : List.lookup "THB" rates = some t) :
    handle_convert text (Except.ok (rates, names, d)) =
      (if u = 0 ∨ k = 0 ∨ t = 0 then ConvertReply.crash
       else ConvertReply.success code (a * rr) (a * rr / u) (a * rr / k)
         (a * rr / t) d) := by
  unfold handle_convert
  simp only [hpa, hdet, hcode, hu, hk, ht]
  by_cases h0 : u = 0
  · simp [pyDiv, h0]
  · by_cases h1 : k = 0
    · simp [pyDiv, h0, h1]
    · by_cases h2 : t = 0
      · simp [pyDiv, h0, h1, h2]
      · simp [pyDiv, h0, h1, h2]

/-- Claim C9 witness: the amended theorem applied to the input 100 rub over
the table c9rates whose USD rate is zero, reducing to the crash outcome. -/
theorem C9_witness :
    parse_amount_and_currency (pyStrip "100 rub") = (some 100, some "rub") ∧
    handle_convert "100 rub" (Except.ok (c9rates, baseNames, d2020)) =
      (if (0 : ℚ) = 0 ∨ (1 : ℚ) = 0 ∨ (1 : ℚ) = 0 then ConvertReply.crash
       else ConvertReply.success "RUB" (100 * 1) (100 * 1 / 0) (100 * 1 / 1)
         (100 * 1 / 1) d2020) :=
  ⟨by with_unfolding_all rfl,
   C9_zero_target_rate "100 rub" c9rates baseNames d2020 100 "rub" "RUB" 1 0 1 1
     (by with_unfolding_all rfl) (by with_unfolding_all rfl)
     (by with_unfolding_all rfl) (by with_unfolding_all rfl)
     (by with_unfolding_all rfl) (by with_unfolding_all rfl)⟩

/-- Claim C10 counterexample: the phrase доллар is a substring of the
normalized display names of both AAA and BBB in c10names, with AAA inserted
earlier, yet the resolver answers USD through the alias tier — not the
earliest-inserted substring match AAA. -/
theorem C10_counterexample :
    strContains (normalize_text "доллар великий") (normalize_text "доллар") = true ∧
    strContains (normalize_text "доллар малый") (normalize_text "доллар") = true ∧
    detect_currency_code "доллар" c10rates c10names = some "USD" ∧
    detect_currency_code "доллар" c10rates c10names ≠ some "AAA" := by
  refine ⟨?_, ?_, ?_, ?_⟩
  · with_unfolding_all rfl
  · with_unfolding_all rfl
  · with_unfolding_all rfl
  · with_unfolding_all decide

/-- Claim C10 (amended): when the alias and ISO tiers both miss, the
resolver returns the code of the first currency in table insertion order
whose normalized display name contains the normalized phrase; and the
parser places the base entry RUB with its fixed display name first in the
name table whenever no feed record contributes an entry under code RUB — so
a phrase that reaches tier 3 and matches the base name resolves to RUB,
while phrases caught by an earlier tier resolve there instead. -/
theorem C10_tier3_order (raw : String) (rates : RateT) (names : NameT)
    (nd : Date) (root : Root) (r : RateT) (n : NameT) (d : Date) :
    ((detectTokens raw).findSome? (fun t => List.lookup t aliases) = none →
     (detectTokens raw).findSome?
        (fun t => if (List.lookup (pyUpper t) rates).isSome then some (pyUpper t)
          else none) = none →
     detect_currency_code raw rates names =
       (names.find? fun p =>
         strContains (normalize_text p.2) (normalize_text raw)).map Prod.fst) ∧
    (parseFeed nd root = Except.ok (r, n, d) →
     (∀ v ∈ root.valutes, entryCode (processValute v) ≠ some "RUB") →
     n.head? = some ("RUB", "Российский рубль")) := by
  constructor
  · intro h1 h2
    unfold detectTokens at h1 h2
    unfold detect_currency_code
    simp only [aliasScan_eq, isoScan_eq, nameScan_eq, h1, h2]
  · intro hok hno
    unfold parseFeed at hok
    cases hd : parseDateAttr nd root.dateAttr with
    | error e => rw [hd] at hok; simp at hok
    | ok d2 =>
      rw [hd] at hok
      cases hf : foldValutes root.valutes initRates initNames with
      | error e => rw [hf] at hok; simp at hok
      | ok rn =>
        obtain ⟨r2, n2⟩ := rn
        rw [hf] at hok
        simp only [Except.ok.injEq, Prod.mk.injEq] at hok
        obtain ⟨hr, hn, hdd⟩ := hok
        subst hn
        have hf2 : foldValutes root.valutes initRates
            (("RUB", "Российский рубль") :: []) = Except.ok (r2, n2) := hf
        obtain ⟨tl2, htl⟩ := foldValutes_head root.valutes initRates
          ("RUB", "Российский рубль") [] r2 n2 hf2 hno
        rw [htl]
        rfl

/-- Claim C10 witness: the amended theorem applied to the phrase росс, a
fragment of the base currency's name that misses tiers 1 and 2 and resolves
to RUB through the ordered name scan, and to the parsed feed rootUSD whose
name table starts with the base entry. -/
theorem C10_witness :
    detect_currency_code "росс" [("RUB", (1 : ℚ))] baseNames =
      ((baseNames.find? fun p =>
        strContains (normalize_text p.2) (normalize_text "росс")).map Prod.fst) ∧
    (([("RUB", "Российский рубль"), ("USD", "Доллар США")] : NameT)).head? =
      some ("RUB", "Российский рубль") :=
  ⟨(C10_tier3_order "росс" [("RUB", (1 : ℚ))] baseNames d2020 rootUSD
      [("RUB", 1), ("USD", 181 / 2)]
      [("RUB", "Российский рубль"), ("USD", "Доллар США")] d2002).1
      (by with_unfolding_all rfl) (by with_unfolding_all rfl),
   (C10_tier3_order "росс" [("RUB", (1 : ℚ))] baseNames d2020 rootUSD
      [("RUB", 1), ("USD", 181 / 2)]
      [("RUB", "Российский рубль"), ("USD", "Доллар США")] d2002).2
      (by with_unfolding_all rfl) (by with_unfolding_all decide)⟩
